import Mathlib

/-!
Shallow embedding of the media-delivery core of `nndownload.py`
(single-file Niconico downloader): quality selection, transfer planning,
single-stream resume, multi-partition progress accounting, playlist
selection and heartbeat scheduling.  Bytes are modelled as `Nat`,
byte strings as `List Nat`, HTTP range semantics per RFC 7233.
-/

namespace NNDownload

/-- `BLOCK_SIZE = 1024` from the source (module constant, line 61). -/
def BLOCK_SIZE : Nat := 1024

/-- `DMC_HEARTBEAT_INTERVAL_S = 15` from the source (line 59):
the fixed delay, in seconds, of the DMC heartbeat timer. -/
def DMC_HEARTBEAT_INTERVAL_S : Nat := 15

/-- Delay of the renewal timer in milliseconds: `perform_heartbeat`
reschedules itself with `threading.Timer(DMC_HEARTBEAT_INTERVAL_S, ...)`
(line 885), a constant independent of the advertised
`heartbeat_lifetime` (which the code reads at line 961 and only embeds
into the session request document, never into the timer). -/
def renewal_delay_ms : Nat := DMC_HEARTBEAT_INTERVAL_S * 1000

/-! ## Playlist selection (`get_playlist_from_m3u8`, lines 308-324)

The regex matches are `(bandwidth, uri)` pairs; the loop keeps the first
stream whose bandwidth strictly exceeds the best seen so far, starting
from `best_bandwidth = -1`. -/

/-- The scanning loop of `get_playlist_from_m3u8`: `b` is
`best_bandwidth`, `s` is `best_stream`; a match replaces them exactly
when its bandwidth is strictly greater. -/
def bestStream : List (Nat × String) → Int → Option String → Option String
  | [], _, s => s
  | m :: rest, b, s =>
      if (m.1 : Int) > b then bestStream rest (m.1 : Int) (some m.2)
      else bestStream rest b s

/-- `get_playlist_from_m3u8`: raises (here `none`) when the match list is
empty, otherwise runs the scan from `(-1, None)`. -/
def get_playlist_from_m3u8 (ms : List (Nat × String)) : Option String :=
  if ms = [] then none else bestStream ms (-1) none

/-- Maximum bandwidth of a match list, with `-1` for the empty list
(the loop's initial `best_bandwidth`). -/
def maxBw : List (Nat × String) → Int
  | [] => -1
  | m :: rest => max (m.1 : Int) (maxBw rest)

/-- The spec's selection rule, stated in its own words: the first variant
whose bandwidth equals the maximum bandwidth of the list. -/
def firstMaxVariant (ms : List (Nat × String)) : Option (Nat × String) :=
  ms.find? (fun p => (p.1 : Int) = maxBw ms)

/-! ## Quality selection (`select_dmc_quality`, lines 907-929) -/

/-- Python `str.lower()` (ASCII-adequate model). -/
def pyLower (s : String) : String := String.mk (s.data.map Char.toLower)

/-- Python `str(list_of_str)` as it appears in the f-string at line 926. -/
def pyListRepr (ss : List String) : String :=
  "[" ++ String.intercalate ", " (ss.map (fun s => "'" ++ s ++ "'")) ++ "]"

/-- The message of the `FormatNotAvailableException` raised at line 926:
`f"Quality '{quality}' is not available. Available qualities: {sources}"`. -/
def qualityUnavailableMsg (quality : String) (sources : List String) : String :=
  "Quality '" ++ (quality ++ ("' is not available. Available qualities: " ++
    pyListRepr sources))

/-- `select_dmc_quality` (lines 907-929).  `quality = none` models the
CLI option being unset; Python truthiness makes `none` and `some ""`
take the first branch.  `forceHigh` is `cmdl_opts.force_high_quality`.
Errors: the raise at line 926, and the `IndexError` Python would raise
on `sources[:1][0]` / `sources[-1:][0]` for an empty list. -/
def select_dmc_quality (sources : List String) (quality : Option String)
    (forceHigh : Bool) : Except String String :=
  if quality.getD "" = "" ∨ forceHigh = true ∨
      pyLower (quality.getD "") = "highest" then
    match sources with
    | [] => .error "IndexError: list index out of range"
    | x :: _ => .ok x
  else if pyLower (quality.getD "") = "lowest" then
    match sources.getLast? with
    | none => .error "IndexError: list index out of range"
    | some x => .ok x
  else
    match sources.find? (fun q => pyLower q = pyLower (quality.getD "")) with
    | none => .error (qualityUnavailableMsg (quality.getD "") sources)
    | some x => .ok x

/-! ## Transfer planning (`download_video`, lines 787-799)

`part = math.ceil(video_len / threads)`; worker `i` gets
`start = part * i` and `end = video_len if i == threads - 1 else
start + part`. -/

/-- `math.ceil(videoLen / threads)` on naturals. -/
def partSize (videoLen threads : Nat) : Nat := (videoLen + threads - 1) / threads

/-- The `[start, end)` pair dispatched to worker `i` (lines 794-795). -/
def partBounds (videoLen threads i : Nat) : Nat × Nat :=
  (partSize videoLen threads * i,
   if i = threads - 1 then videoLen
   else partSize videoLen threads * i + partSize videoLen threads)

/-- The full partition list dispatched by the multithreaded path of
`download_video` (the loop `for i in range(threads)`). -/
def plan (videoLen threads : Nat) : List (Nat × Nat) :=
  (List.range threads).map (fun i => partBounds videoLen threads i)

/-- `b` lies in some partition of the plan. -/
def covered (pl : List (Nat × Nat)) (b : Nat) : Prop :=
  ∃ p ∈ pl, p.1 ≤ b ∧ b < p.2

instance (pl : List (Nat × Nat)) (b : Nat) : Decidable (covered pl b) := by
  unfold covered; infer_instance

/-! ## Multithreaded entry of `download_video` (lines 762-813)

Observable side effects, in program order: the `session.head` request for
the content length (line 767) comes first; the thread-count check
(lines 774-776) raises `ArgumentException` before any file is opened;
then the destination is truncated to full length (lines 783-785) and one
ranged GET per partition is dispatched (lines 793-799). -/

inductive Op where
  | head : Op
  | truncateTo : Nat → Op
  | get : Nat → Nat → Op
deriving DecidableEq, Repr

/-- The multithreaded path of `download_video` when `--threads t` was
explicitly passed, reduced to its result and its ordered side effects. -/
def download_video_threaded (t : Int) (L : Nat) : Except String Unit × List Op :=
  if t ≤ 0 then
    (.error "Thread number must be a positive integer", [Op.head])
  else
    (.ok (), Op.head :: Op.truncateTo L ::
      (plan L t.toNat).map (fun p => Op.get p.1 p.2))

/-! ## Multi-partition progress accounting
(`download_video_part`, lines 741-759; `update_multithread_progress`,
lines 729-738; `show_multithread_progress`, lines 715-726) -/

/-- Fuel-driven splitter behind `chunks`; for `0 < bs` a fuel of
`l.length` is never exhausted before the stream ends. -/
def chunksF (bs : Nat) : Nat → List Nat → List (List Nat)
  | 0, _ => []
  | fuel + 1, l => if l = [] then [] else l.take bs :: chunksF bs fuel (l.drop bs)

/-- Split a stream into the blocks yielded by
`iter_content(bs)`: successive chunks of `bs` bytes, last one shorter. -/
def chunks (bs : Nat) (l : List Nat) : List (List Nat) := chunksF bs l.length l

/-- Body of the ranged GET issued by `download_video_part`:
`Range: bytes=start-end` is an inclusive byte range, clamped by the
server to the last byte of the `L`-byte resource (RFC 7233). -/
def range_body (remote : List Nat) (start endB : Nat) : List Nat :=
  (remote.drop start).take (min endB (remote.length - 1) + 1 - start)

/-- Net delta contributed to the shared `progress` counter by one
`download_video_part` worker: `update_multithread_progress(len(block))`
per block received, then `update_multithread_progress(-1)` (line 759,
commented "NUL byte at end of each part"). -/
def download_video_part (remote : List Nat) (p : Nat × Nat) : Int :=
  ((chunks BLOCK_SIZE (range_body remote p.1 p.2)).map
    (fun b => (b.length : Int))).sum + (-1)

/-- Final value of the shared `progress` counter once every partition
worker of `download_video` has completed. -/
def multithread_progress_total (remote : List Nat) (threads : Nat) : Int :=
  ((plan remote.length threads).map (fun p => download_video_part remote p)).sum

/-- The termination test of the reporter loop in
`show_multithread_progress`: `progress >= video_len`. -/
def progress_reaches (videoLen : Nat) (p : Int) : Prop := (videoLen : Int) ≤ p

instance (videoLen : Nat) (p : Int) : Decidable (progress_reaches videoLen p) := by
  unfold progress_reaches; infer_instance

/-! ## The lock of `update_multithread_progress` (lines 729-738)

The function body is `lock = threading.Lock(); lock.acquire(); ...`:
each call constructs a brand-new `threading.Lock` object and acquires
that.  Object creation is modelled by a fresh-id allocator so that lock
identity across calls is expressible. -/

structure ProgressState where
  nextLockId : Nat
  progress : Int
deriving DecidableEq, Repr

/-- `update_multithread_progress(bytes_len)`: allocates a new lock
(line 732), acquires it, adds `bytes_len` to the global `progress`
(line 736), releases.  Returns the id of the lock object this call held
together with the updated state. -/
def update_multithread_progress (st : ProgressState) (bytesLen : Int) :
    Nat × ProgressState :=
  (st.nextLockId,
   { nextLockId := st.nextLockId + 1, progress := st.progress + bytesLen })

/-! ## Single-stream path of `download_video` (lines 815-876)

The remote resource is `remote`; an existing local file is
`some c`.  The function returns the outcome (`.error ()` models the
`FormatNotAvailableException` raise at line 825) paired with the list of
start offsets of the `Range: bytes={start}-` GETs it issued, in order.
A negative start (possible at line 820, where the code computes
`current_byte_pos - BLOCK_SIZE` without clamping) yields a syntactically
invalid `Range` header, which a server ignores, answering with the full
body — i.e. content from offset `max 0 start`. -/

/-- Body of a `Range: bytes={start}-` GET: content from `start` on;
a negative (invalid) start yields the whole resource. -/
def rangeFrom (remote : List Nat) (start : Int) : List Nat :=
  if start < 0 then remote else remote.drop start.toNat

/-- A fresh download (no local file): GET `bytes=0-`, write every block
to the new file; the result is the full remote content.  This is also
what the recursive `download_video` call performs right after
`os.remove` (lines 848-850 and 860-862). -/
def download_fresh (remote : List Nat) : List Nat := rangeFrom remote 0

/-- The resume offset put into the `Range` header at line 820:
`current_byte_pos - BLOCK_SIZE`, computed without clamping (it can be
negative). -/
def resume_start (bs : Nat) (c : List Nat) : Int := (c.length : Int) - (bs : Int)

/-- The body of the resume GET (line 837). -/
def resume_stream (bs : Nat) (remote c : List Nat) : List Nat :=
  rangeFrom remote (resume_start bs c)

/-- `new_data = next(stream_iterator)` (line 842): the first
`iter_content(BLOCK_SIZE)` block of the resume GET body. -/
def resume_new_data (bs : Nat) (remote c : List Nat) : List Nat :=
  (resume_stream bs remote c).take bs

/-- `existing_data` (lines 852-854): the existing file from position
`current_byte_pos - BLOCK_SIZE`, read to EOF and cut to `len(new_data)`. -/
def resume_existing_data (bs : Nat) (remote c : List Nat) : List Nat :=
  (c.drop (c.length - bs)).take (resume_new_data bs remote c).length

/-- Single-stream `download_video` (lines 815-876): returns the final
local file (or the raise at line 825) and the ordered GET offsets.
In the resume branch, a match appends the remaining blocks after the
overlap (the file is opened `"ab"`, so every write lands at the end of
the file); a mismatch, or an overlap block reaching at or before the
start of the existing file (`current_byte_pos - new_data_len <= 0`,
line 846), deletes the file and redownloads from scratch — the
recursive call at lines 849/861 re-enters with no file present, which
is `download_fresh`. -/
def download_video : Nat → List Nat → Option (List Nat) →
    Except Unit (List Nat) × List Int
  | bs, remote, some c =>
    if c.length < remote.length then
      if (c.length : Int) - ((resume_new_data bs remote c).length : Int) ≤ 0 then
        (.ok (download_fresh remote), [resume_start bs c, 0])
      else
        if resume_new_data bs remote c = resume_existing_data bs remote c then
          (.ok (c ++ (resume_stream bs remote c).drop
                  (resume_new_data bs remote c).length),
           [resume_start bs c])
        else
          (.ok (download_fresh remote), [resume_start bs c, 0])
    else if remote.length < c.length then
      (.error (), [])
    else
      (.ok c, [])
  | _, remote, none => (.ok (download_fresh remote), [0])

/-- Existing partial file of the resume counterexample: its last
`BLOCK_SIZE` bytes agree with the remote content, its first byte does
not. -/
def ce_file : List Nat := 8 :: List.replicate 1024 1

/-- Remote content of the resume counterexample. -/
def ce_remote : List Nat := 9 :: (List.replicate 1024 1 ++ [5])

/-- Characterization of the scanning loop: starting from champion value
`b` and champion `s`, the scan returns `s` unchanged when no bandwidth
exceeds `b`, and otherwise the uri of the first variant attaining the
maximum bandwidth of the list. -/
theorem bestStream_spec (ms : List (Nat × String)) (b : Int) (s : Option String)
    (hb : -1 ≤ b) :
    bestStream ms b s =
      if maxBw ms ≤ b then s
      else (ms.find? (fun p => (p.1 : Int) = maxBw ms)).map Prod.snd := by
  induction ms generalizing b s with
  | nil => simp [bestStream, maxBw, hb]
  | cons m rest ih =>
    by_cases hm : (m.1 : Int) > b
    · rw [bestStream, if_pos hm, ih _ _ (by omega)]
      by_cases hr : maxBw rest ≤ (m.1 : Int)
      · rw [if_pos hr]
        have hmax : maxBw (m :: rest) = (m.1 : Int) := by
          simp [maxBw]; omega
        rw [if_neg (by omega), hmax, List.find?]
        simp
      · rw [if_neg hr]
        have hmax : maxBw (m :: rest) = maxBw rest := by
          simp [maxBw]; omega
        rw [if_neg (by omega), hmax, List.find?]
        have : ¬ ((m.1 : Int) = maxBw rest) := by omega
        simp [this]
    · rw [bestStream, if_neg hm, ih _ _ hb]
      by_cases hr : maxBw rest ≤ b
      · rw [if_pos hr, if_pos (by simp [maxBw]; omega)]
      · rw [if_neg hr]
        have hmax : maxBw (m :: rest) = maxBw rest := by
          simp [maxBw]; omega
        rw [if_neg (by omega), hmax, List.find?]
        have : ¬ ((m.1 : Int) = maxBw rest) := by omega
        simp [this]

/-- C9: for every non-empty parsed variant list, `get_playlist_from_m3u8`
returns the URI of the first variant attaining the maximum bandwidth (so
ties go to the earliest occurrence); on `(500, a)(1500, b)(1500, c)` it
returns `b.m3u8`. -/
theorem playlist_selects_first_max (ms : List (Nat × String)) (h : ms ≠ []) :
    get_playlist_from_m3u8 ms = (firstMaxVariant ms).map Prod.snd ∧
    get_playlist_from_m3u8 [(500, "a.m3u8"), (1500, "b.m3u8"), (1500, "c.m3u8")] =
      some "b.m3u8" := by
  refine ⟨?_, by decide⟩
  rw [get_playlist_from_m3u8, if_neg h,
    bestStream_spec ms (-1) none (by omega), firstMaxVariant]
  rcases ms with _ | ⟨m, rest⟩
  · exact absurd rfl h
  · rw [if_neg (by simp [maxBw, max_le_iff]; omega)]

/-- Witness for C9 at the spec's Scenario C. -/
theorem playlist_selects_first_max_witness :
    (([(500, "a.m3u8"), (1500, "b.m3u8"), (1500, "c.m3u8")] :
        List (Nat × String)) ≠ []) ∧
    (get_playlist_from_m3u8 [(500, "a.m3u8"), (1500, "b.m3u8"), (1500, "c.m3u8")] =
        (firstMaxVariant
          [(500, "a.m3u8"), (1500, "b.m3u8"), (1500, "c.m3u8")]).map Prod.snd ∧
      get_playlist_from_m3u8 [(500, "a.m3u8"), (1500, "b.m3u8"), (1500, "c.m3u8")] =
        some "b.m3u8") :=
  ⟨by decide, playlist_selects_first_max _ (by decide)⟩

/-- C7 (amended): the heartbeat timer is rescheduled with the constant
delay `DMC_HEARTBEAT_INTERVAL_S = 15 s`; it fires strictly before the
advertised `heartbeatLifetimeMs` has elapsed exactly when that lifetime
exceeds 15000 ms. -/
theorem renewal_fires_before_lifetime (lifetimeMs : Nat) (h : 15000 < lifetimeMs) :
    renewal_delay_ms < lifetimeMs := by
  simpa [renewal_delay_ms, DMC_HEARTBEAT_INTERVAL_S] using h

/-- Witness for C7 at the typical DMC lifetime of 120000 ms. -/
theorem renewal_fires_before_lifetime_witness :
    15000 < 120000 ∧ renewal_delay_ms < 120000 :=
  ⟨by decide, renewal_fires_before_lifetime 120000 (by decide)⟩

/-- C7 counterexample: for a session advertising
`heartbeatLifetimeMs = 15000` the timer (fixed at 15 s regardless of the
advertised lifetime) does not fire strictly before the lifetime has
elapsed. -/
theorem renewal_not_before_lifetime_ce : ¬ renewal_delay_ms < 15000 := by decide

/-- C10: `update_multithread_progress` constructs a fresh
`threading.Lock` inside each call, so two consecutive updates are
performed while holding two different lock objects — there is no single
mutex shared by the workers, and the claimed mutual exclusion does not
exist. -/
theorem progress_update_lock_not_shared (st : ProgressState) (d1 d2 : Int) :
    (update_multithread_progress st d1).1 ≠
      (update_multithread_progress (update_multithread_progress st d1).2 d2).1 := by
  simp [update_multithread_progress]

/-- C8 counterexample: with an explicitly requested thread count of 0
the transfer does fail, but a network request (the HEAD for the content
length, line 767) has already been sent before the error surfaces, so it
is not the case that no request is sent. -/
theorem threads_gate_head_before_error_ce :
    (download_video_threaded 0 1000).1 =
      .error "Thread number must be a positive integer" ∧
    Op.head ∈ (download_video_threaded 0 1000).2 :=
  ⟨rfl, by decide⟩

/-- C8 (amended): a non-positive explicit thread count makes
`download_video` raise `ArgumentException` before any file is touched
and before any media data is requested; the only prior side effect is
the single HEAD metadata request for the content length. -/
theorem threads_gate_fail_fast (t : Int) (L : Nat) (h : t ≤ 0) :
    download_video_threaded t L =
      (.error "Thread number must be a positive integer", [Op.head]) := by
  simp [download_video_threaded, h]

/-- Witness for C8 at thread count 0. -/
theorem threads_gate_fail_fast_witness :
    (0 : Int) ≤ 0 ∧ download_video_threaded 0 1000 =
      (.error "Thread number must be a positive integer", [Op.head]) :=
  ⟨by decide, threads_gate_fail_fast 0 1000 (by decide)⟩

set_option maxRecDepth 100000 in
/-- C6: at `totalLength = 1000`, `threadCount = 4`, the deltas reported
by the four partition workers sum to 999, not 1000: the inclusive
`Range: bytes=start-end` header makes each of the three non-final
workers receive one extra overlap byte, which the trailing `-1`
adjustment compensates, but the final worker (whose range is clamped by
the server) receives no extra byte and still subtracts 1.  The reporter
loop's own termination test `progress >= video_len` is therefore never
satisfied. -/
theorem multithread_progress_total_999 :
    multithread_progress_total (List.replicate 1000 0) 4 = 999 ∧
    ¬ progress_reaches 1000 (multithread_progress_total (List.replicate 1000 0) 4) := by
  decide

/-- Membership in the dispatched plan, by worker index. -/
theorem covered_plan_iff (L t b : Nat) :
    covered (plan L t) b ↔
      ∃ i, i < t ∧ (partBounds L t i).1 ≤ b ∧ b < (partBounds L t i).2 := by
  unfold covered plan
  constructor
  · rintro ⟨p, hp, h1, h2⟩
    rcases List.mem_map.mp hp with ⟨i, hi, rfl⟩
    exact ⟨i, List.mem_range.mp hi, h1, h2⟩
  · rintro ⟨i, hi, h1, h2⟩
    exact ⟨partBounds L t i, List.mem_map.mpr ⟨i, List.mem_range.mpr hi, rfl⟩, h1, h2⟩

/-- C2 (amended): whenever `ceil(L/t) * (t-1) ≤ L` (true in particular
for Scenario A, `L = 1000`, `t = 4`), the dispatched partitions cover
exactly `[0, L)`, are pairwise non-overlapping and contiguous, start at
0, end exactly at `L`, and every non-final partition has size
`ceil(L/t)`; without that side condition interior partitions can overrun
`L` (see the counterexample).  For `L = 1000`, `t = 4` the plan is
`[0,250),[250,500),[500,750),[750,1000)`. -/
theorem partition_plan (L t : Nat) (ht : 0 < t)
    (hfit : partSize L t * (t - 1) ≤ L) :
    (∀ b, covered (plan L t) b ↔ b < L) ∧
    (∀ b i j, i < t → j < t →
      ((partBounds L t i).1 ≤ b ∧ b < (partBounds L t i).2) →
      ((partBounds L t j).1 ≤ b ∧ b < (partBounds L t j).2) → i = j) ∧
    (∀ i, i + 1 < t → (partBounds L t i).2 = (partBounds L t (i + 1)).1) ∧
    (partBounds L t 0).1 = 0 ∧
    (partBounds L t (t - 1)).2 = L ∧
    (∀ i, i < t - 1 →
      (partBounds L t i).2 - (partBounds L t i).1 = partSize L t) ∧
    plan 1000 4 = [(0, 250), (250, 500), (500, 750), (750, 1000)] := by
  have hb1 : ∀ i, (partBounds L t i).1 = partSize L t * i := fun i => rfl
  have hb2 : ∀ i, i ≠ t - 1 →
      (partBounds L t i).2 = partSize L t * i + partSize L t := by
    intro i hi; simp [partBounds, hi]
  have hb2' : (partBounds L t (t - 1)).2 = L := by simp [partBounds]
  have haux : ∀ b i j, i < j → j < t →
      ((partBounds L t i).1 ≤ b ∧ b < (partBounds L t i).2) →
      ((partBounds L t j).1 ≤ b ∧ b < (partBounds L t j).2) → False := by
    rintro b i j hij hjt ⟨hi1, hi2⟩ ⟨hj1, hj2⟩
    have hine : i ≠ t - 1 := by omega
    rw [hb2 i hine] at hi2
    rw [hb1] at hj1
    have hmono : partSize L t * (i + 1) ≤ partSize L t * j :=
      Nat.mul_le_mul_left _ (by omega)
    have hr : partSize L t * (i + 1) = partSize L t * i + partSize L t := by ring
    omega
  have hcov : ∀ b, covered (plan L t) b ↔ b < L := by
    intro b
    rw [covered_plan_iff]
    constructor
    · rintro ⟨i, hit, h1, h2⟩
      by_cases hie : i = t - 1
      · rw [hie, hb2'] at h2; exact h2
      · rw [hb2 i hie] at h2
        have h3 : partSize L t * (i + 1) ≤ partSize L t * (t - 1) :=
          Nat.mul_le_mul_left _ (by omega)
        have hr : partSize L t * (i + 1) = partSize L t * i + partSize L t := by
          ring
        omega
    · intro hbL
      have hc : 0 < partSize L t := by
        rcases Nat.eq_zero_or_pos (partSize L t) with h0 | h
        · exfalso
          have hdm := Nat.div_add_mod (L + t - 1) t
          have hml := Nat.mod_lt (L + t - 1) ht
          unfold partSize at h0
          rw [h0, Nat.mul_zero] at hdm
          omega
        · exact h
      by_cases hcase : b / partSize L t < t - 1
      · refine ⟨b / partSize L t, by omega, ?_, ?_⟩
        · rw [hb1]
          have h1 := Nat.div_add_mod b (partSize L t)
          omega
        · rw [hb2 _ (by omega)]
          have h1 := Nat.div_add_mod b (partSize L t)
          have h2 := Nat.mod_lt b hc
          omega
      · refine ⟨t - 1, by omega, ?_, ?_⟩
        · rw [hb1]
          have h1 := Nat.div_add_mod b (partSize L t)
          have h3 : partSize L t * (t - 1) ≤ partSize L t * (b / partSize L t) :=
            Nat.mul_le_mul_left _ (by omega)
          omega
        · rw [hb2']; exact hbL
  refine ⟨hcov, ?_, ?_, by simp [partBounds], hb2', ?_, by decide⟩
  · intro b i j hit hjt hi hj
    rcases Nat.lt_trichotomy i j with h | h | h
    · exact (haux b i j h hjt hi hj).elim
    · exact h
    · exact (haux b j i h hit hj hi).elim
  · intro i hi
    rw [hb2 i (by omega), hb1]
    ring
  · intro i hi
    rw [hb2 i (by omega), hb1]
    omega

/-- Witness for C2 at Scenario A (`L = 1000`, `t = 4`). -/
theorem partition_plan_witness :
    (0 < 4 ∧ partSize 1000 4 * (4 - 1) ≤ 1000) ∧
    ((∀ b, covered (plan 1000 4) b ↔ b < 1000) ∧
     (∀ b i j, i < 4 → j < 4 →
       ((partBounds 1000 4 i).1 ≤ b ∧ b < (partBounds 1000 4 i).2) →
       ((partBounds 1000 4 j).1 ≤ b ∧ b < (partBounds 1000 4 j).2) → i = j) ∧
     (∀ i, i + 1 < 4 → (partBounds 1000 4 i).2 = (partBounds 1000 4 (i + 1)).1) ∧
     (partBounds 1000 4 0).1 = 0 ∧
     (partBounds 1000 4 (4 - 1)).2 = 1000 ∧
     (∀ i, i < 4 - 1 →
       (partBounds 1000 4 i).2 - (partBounds 1000 4 i).1 = partSize 1000 4) ∧
     plan 1000 4 = [(0, 250), (250, 500), (500, 750), (750, 1000)]) :=
  ⟨⟨by decide, by decide⟩, partition_plan 1000 4 (by decide) (by decide)⟩

/-- C2 counterexample: at `totalLength = 5`, `threadCount = 4` the plan
is `[0,2),[2,4),[4,6),[6,5)`: the third partition covers byte 5, which
lies outside `[0, 5)`, so the union of the partitions is not exactly
`[0, totalLength)` and the universally quantified claim fails. -/
theorem partition_plan_ce :
    plan 5 4 = [(0, 2), (2, 4), (4, 6), (6, 5)] ∧
    covered (plan 5 4) 5 ∧ ¬ (5 < 5) := by decide

/-- C3 (amended): on a non-empty candidate list, `select_dmc_quality`
returns the first candidate when `forceHigh` is set, or the requested
quality is absent or the empty string (Python truthiness conflates the
two), or the requested quality is `highest` case-insensitively (with
`forceHigh` winning over any concrete request); the last candidate when
a non-empty requested quality is `lowest` case-insensitively and
`forceHigh` is unset; and otherwise the first candidate matching the
(non-empty) requested value case-insensitively. -/
theorem select_quality_contract (sources : List String) (quality : Option String)
    (forceHigh : Bool) (h : sources ≠ []) :
    ((forceHigh = true ∨ quality = none ∨ quality = some "" ∨
        (∃ q, quality = some q ∧ pyLower q = "highest")) →
      select_dmc_quality sources quality forceHigh = .ok (sources.head h)) ∧
    (∀ q, forceHigh = false → quality = some q → q ≠ "" →
      pyLower q = "lowest" →
      select_dmc_quality sources quality forceHigh = .ok (sources.getLast h)) ∧
    (∀ q c, forceHigh = false → quality = some q → q ≠ "" →
      pyLower q ≠ "highest" → pyLower q ≠ "lowest" →
      sources.find? (fun s => pyLower s = pyLower q) = some c →
      select_dmc_quality sources quality forceHigh = .ok c) := by
  refine ⟨?_, ?_, ?_⟩
  · intro hcond
    rcases sources with _ | ⟨x, xs⟩
    · exact absurd rfl h
    · have hif : (quality.getD "" = "" ∨ forceHigh = true ∨
          pyLower (quality.getD "") = "highest") := by
        rcases hcond with hf | hq | hq | ⟨q, hq, hlow⟩
        · exact Or.inr (Or.inl hf)
        · subst hq; exact Or.inl rfl
        · subst hq; exact Or.inl rfl
        · subst hq; exact Or.inr (Or.inr hlow)
      rw [select_dmc_quality.eq_def, if_pos hif]
      simp
  · intro q hf hq hne hlow
    subst hq; subst hf
    have hif : ¬ ((some q).getD "" = "" ∨ False = true ∨
        pyLower ((some q).getD "") = "highest") := by
      simp only [Option.getD_some]
      rintro (h1 | h1 | h1)
      · exact hne h1
      · exact absurd h1 (by simp)
      · rw [h1] at hlow; exact absurd hlow (by decide)
    rw [select_dmc_quality.eq_def, if_neg (by simpa using hif)]
    rw [if_pos (by simpa using hlow)]
    rw [List.getLast?_eq_getLast sources h]
  · intro q c hf hq hne hhigh hlow hfind
    subst hq; subst hf
    have hif : ¬ ((some q).getD "" = "" ∨ False = true ∨
        pyLower ((some q).getD "") = "highest") := by
      simp only [Option.getD_some]
      rintro (h1 | h1 | h1)
      · exact hne h1
      · exact absurd h1 (by simp)
      · exact hhigh h1
    rw [select_dmc_quality.eq_def, if_neg (by simpa using hif)]
    rw [if_neg (by simpa using hlow)]
    simp only [Option.getD_some]
    rw [hfind]

/-- Witness for C3: `["high", "mid", "low"]` with requested `"MID"`. -/
theorem select_quality_contract_witness :
    ((["high", "mid", "low"] : List String) ≠ []) ∧
    (((false = true ∨ (some "MID" : Option String) = none ∨
        (some "MID" : Option String) = some "" ∨
        (∃ q, (some "MID" : Option String) = some q ∧ pyLower q = "highest")) →
      select_dmc_quality ["high", "mid", "low"] (some "MID") false =
        .ok (["high", "mid", "low"].head (by decide))) ∧
    (∀ q, false = false → (some "MID" : Option String) = some q → q ≠ "" →
      pyLower q = "lowest" →
      select_dmc_quality ["high", "mid", "low"] (some "MID") false =
        .ok (["high", "mid", "low"].getLast (by decide))) ∧
    (∀ q c, false = false → (some "MID" : Option String) = some q → q ≠ "" →
      pyLower q ≠ "highest" → pyLower q ≠ "lowest" →
      (["high", "mid", "low"] : List String).find?
        (fun s => pyLower s = pyLower q) = some c →
      select_dmc_quality ["high", "mid", "low"] (some "MID") false = .ok c)) :=
  ⟨by decide, select_quality_contract ["high", "mid", "low"] (some "MID") false
    (by decide)⟩

/-- C3 counterexample: with candidates `["x", ""]`, requested value `""`
(present but empty) and `forceHighest` unset, the code takes the
first-candidate branch (Python `not quality` is true for the empty
string) and returns `"x"`, not the candidate `""` whose id matches the
requested value case-insensitively as the claim's otherwise-clause
requires. -/
theorem select_quality_empty_requested_ce :
    select_dmc_quality ["x", ""] (some "") false = .ok "x" ∧
    (["x", ""] : List String).find? (fun s => pyLower s = pyLower "") =
      some "" ∧ "x" ≠ "" :=
  ⟨rfl, by decide, by decide⟩

/-- C4 (amended): on a non-empty candidate list with `forceHighest`
unset and a concrete non-empty requested value that is neither
`highest` nor `lowest` case-insensitively and matches no candidate,
`select_dmc_quality` fails with the `FormatNotAvailableException`
message naming the requested value and the full candidate list, and
these are the only inputs on which it fails. -/
theorem select_quality_unavailable (sources : List String)
    (quality : Option String) (forceHigh : Bool) (h : sources ≠ []) :
    (∀ q, forceHigh = false → quality = some q → q ≠ "" →
      pyLower q ≠ "highest" → pyLower q ≠ "lowest" →
      sources.find? (fun s => pyLower s = pyLower q) = none →
      select_dmc_quality sources quality forceHigh =
        .error (qualityUnavailableMsg q sources) ∧
      qualityUnavailableMsg q sources =
        "Quality '" ++ (q ++ ("' is not available. Available qualities: " ++
          pyListRepr sources))) ∧
    (∀ e, select_dmc_quality sources quality forceHigh = .error e →
      forceHigh = false ∧ ∃ q, quality = some q ∧ q ≠ "" ∧
        pyLower q ≠ "highest" ∧ pyLower q ≠ "lowest" ∧
        sources.find? (fun s => pyLower s = pyLower q) = none ∧
        e = qualityUnavailableMsg q sources) := by
  constructor
  · intro q hf hq hne hhigh hlow hfind
    subst hq; subst hf
    have hif : ¬ ((some q).getD "" = "" ∨ False = true ∨
        pyLower ((some q).getD "") = "highest") := by
      simp only [Option.getD_some]
      rintro (h1 | h1 | h1)
      · exact hne h1
      · exact absurd h1 (by simp)
      · exact hhigh h1
    rw [select_dmc_quality.eq_def, if_neg (by simpa using hif)]
    rw [if_neg (by simpa using hlow)]
    simp only [Option.getD_some]
    rw [hfind]
    exact ⟨rfl, rfl⟩
  · intro e he
    rcases sources with _ | ⟨x, xs⟩
    · exact absurd rfl h
    · rw [select_dmc_quality.eq_def] at he
      by_cases hif : (quality.getD "" = "" ∨ forceHigh = true ∨
          pyLower (quality.getD "") = "highest")
      · rw [if_pos hif] at he
        exact absurd he (by simp)
      · rw [if_neg hif] at he
        by_cases hlow : pyLower (quality.getD "") = "lowest"
        · rw [if_pos hlow] at he
          rw [List.getLast?_eq_getLast (x :: xs) (by simp)] at he
          exact absurd he (by simp)
        · rw [if_neg hlow] at he
          rcases hfind : (x :: xs).find?
              (fun s => pyLower s = pyLower (quality.getD "")) with _ | c
          · rw [hfind] at he
            push_neg at hif
            obtain ⟨hne, hforce, hhigh⟩ := hif
            rcases quality with _ | q
            · exact absurd rfl hne
            · simp only [Option.getD_some] at hne hhigh hlow hfind he ⊢
              refine ⟨by simpa using hforce, q, rfl, hne, hhigh, hlow, hfind, ?_⟩
              injection he with he'
              exact he'.symm
          · rw [hfind] at he
            exact absurd he (by simp)

/-- Witness for C4: candidates `["high", "mid"]`, requested `"ultra"`. -/
theorem select_quality_unavailable_witness :
    ((["high", "mid"] : List String) ≠ []) ∧
    ((∀ q, false = false → (some "ultra" : Option String) = some q → q ≠ "" →
      pyLower q ≠ "highest" → pyLower q ≠ "lowest" →
      (["high", "mid"] : List String).find?
        (fun s => pyLower s = pyLower q) = none →
      select_dmc_quality ["high", "mid"] (some "ultra") false =
        .error (qualityUnavailableMsg q ["high", "mid"]) ∧
      qualityUnavailableMsg q ["high", "mid"] =
        "Quality '" ++ (q ++ ("' is not available. Available qualities: " ++
          pyListRepr ["high", "mid"]))) ∧
    (∀ e, select_dmc_quality ["high", "mid"] (some "ultra") false = .error e →
      false = false ∧ ∃ q, (some "ultra" : Option String) = some q ∧ q ≠ "" ∧
        pyLower q ≠ "highest" ∧ pyLower q ≠ "lowest" ∧
        (["high", "mid"] : List String).find?
          (fun s => pyLower s = pyLower q) = none ∧
        e = qualityUnavailableMsg q ["high", "mid"])) :=
  ⟨by decide, select_quality_unavailable ["high", "mid"] (some "ultra") false
    (by decide)⟩

/-- C4 counterexample: the requested value `""` (concrete, not
`highest`/`lowest`, `forceHighest` unset) matches no candidate of
`["high"]`, yet `select_dmc_quality` succeeds with `"high"` instead of
failing with `QualityUnavailable`: Python's truthiness test sends the
empty string down the first-candidate branch. -/
theorem select_quality_no_failure_ce :
    select_dmc_quality ["high"] (some "") false = .ok "high" ∧
    (["high"] : List String).find? (fun s => pyLower s = pyLower "") = none :=
  ⟨rfl, by decide⟩

/-- A fresh download yields exactly the remote content. -/
theorem download_fresh_eq (remote : List Nat) : download_fresh remote = remote := by
  simp [download_fresh, rangeFrom]

/-- The resume GET effectively requests content from byte offset
`max 0 (existingSize - blockSize)` (Nat subtraction): a negative header
offset degenerates to the full body. -/
theorem resume_stream_eq (bs : Nat) (remote c : List Nat) :
    resume_stream bs remote c = remote.drop (c.length - bs) := by
  unfold resume_stream rangeFrom resume_start
  by_cases hneg : (c.length : Int) - (bs : Int) < 0
  · rw [if_pos hneg]
    have h0 : c.length - bs = 0 := by omega
    rw [h0, List.drop_zero]
  · rw [if_neg hneg]
    have h0 : ((c.length : Int) - (bs : Int)).toNat = c.length - bs := by omega
    rw [h0]

/-- Length of the first fetched block. -/
theorem resume_new_data_length (bs : Nat) (remote c : List Nat) :
    (resume_new_data bs remote c).length =
      min bs (remote.length - (c.length - bs)) := by
  rw [resume_new_data, List.length_take, resume_stream_eq, List.length_drop]

/-- Restart branch for a short existing file: when
`existingSize - blockSize ≤ 0` the code deletes the file and
redownloads from scratch. -/
theorem download_video_resume_short (bs : Nat) (remote c : List Nat)
    (hlt : c.length < remote.length) (hle : c.length ≤ bs) :
    download_video bs remote (some c) =
      (.ok (download_fresh remote), [resume_start bs c, 0]) := by
  rw [download_video, if_pos hlt, if_pos ?cond]
  case cond =>
    rw [resume_new_data_length]
    have h0 : c.length - bs = 0 := by omega
    omega

/-- Matching-overlap branch: for `blockSize < existingSize` and a
byte-identical overlap block, the final file is the existing file
followed by the remote content from `existingSize` on. -/
theorem download_video_resume_match (bs : Nat) (remote c : List Nat)
    (hbc : bs < c.length) (hlt : c.length < remote.length)
    (hm : (remote.drop (c.length - bs)).take bs = c.drop (c.length - bs)) :
    download_video bs remote (some c) =
      (.ok (c ++ remote.drop c.length), [resume_start bs c]) := by
  have hndl : (resume_new_data bs remote c).length = bs := by
    rw [resume_new_data_length]; omega
  have hcd : (c.drop (c.length - bs)).length = bs := by
    rw [List.length_drop]; omega
  have hex : resume_existing_data bs remote c = c.drop (c.length - bs) := by
    rw [resume_existing_data, hndl, List.take_of_length_le (le_of_eq hcd)]
  have hmatch : resume_new_data bs remote c = resume_existing_data bs remote c := by
    rw [hex, resume_new_data, resume_stream_eq]
    exact hm
  rw [download_video, if_pos hlt, if_neg (by rw [hndl]; omega), if_pos hmatch, hndl,
    resume_stream_eq, List.drop_drop]
  have harith : c.length - bs + bs = c.length := by omega
  rw [harith]

/-- Mismatching-overlap branch: delete and redownload from scratch. -/
theorem download_video_resume_mismatch (bs : Nat) (remote c : List Nat)
    (hbc : bs < c.length) (hlt : c.length < remote.length)
    (hm : (remote.drop (c.length - bs)).take bs ≠ c.drop (c.length - bs)) :
    download_video bs remote (some c) =
      (.ok (download_fresh remote), [resume_start bs c, 0]) := by
  have hndl : (resume_new_data bs remote c).length = bs := by
    rw [resume_new_data_length]; omega
  have hcd : (c.drop (c.length - bs)).length = bs := by
    rw [List.length_drop]; omega
  have hex : resume_existing_data bs remote c = c.drop (c.length - bs) := by
    rw [resume_existing_data, hndl, List.take_of_length_le (le_of_eq hcd)]
  have hmatch : resume_new_data bs remote c ≠ resume_existing_data bs remote c := by
    rw [hex, resume_new_data, resume_stream_eq]
    exact hm
  rw [download_video, if_pos hlt, if_neg (by rw [hndl]; omega), if_neg hmatch]

/-- C1 (amended): for an existing file shorter than the remote content,
the engine requests the remote content from effective offset
`max(0, existingSize - blockSize)` (Nat subtraction; the raw header
offset is `existingSize - blockSize`, whose negative values degenerate
to a full-body response).  If `existingSize ≤ blockSize` the file is
deleted and the transfer restarts, producing the full remote content;
if the overlap block matches, the final file is the existing file
followed by the remote bytes from `existingSize` on — byte-identical to
a fresh full download whenever the existing file is a prefix of the
remote content (but not in general, see the counterexample); if the
overlap mismatches, the file is deleted and the restart again produces
exactly the remote content. -/
theorem single_stream_resume (bs : Nat) (remote c : List Nat)
    (_hbs : 0 < bs) (hlt : c.length < remote.length) :
    resume_stream bs remote c = remote.drop (c.length - bs) ∧
    (c.length ≤ bs →
      download_video bs remote (some c) =
        (.ok (download_fresh remote), [resume_start bs c, 0])) ∧
    (bs < c.length →
      (remote.drop (c.length - bs)).take bs = c.drop (c.length - bs) →
      (download_video bs remote (some c) =
          (.ok (c ++ remote.drop c.length), [resume_start bs c]) ∧
        (c = remote.take c.length →
          c ++ remote.drop c.length = download_fresh remote))) ∧
    (bs < c.length →
      (remote.drop (c.length - bs)).take bs ≠ c.drop (c.length - bs) →
      download_video bs remote (some c) =
        (.ok (download_fresh remote), [resume_start bs c, 0])) ∧
    download_fresh remote = remote := by
  refine ⟨resume_stream_eq bs remote c, ?_, ?_, ?_, download_fresh_eq remote⟩
  · intro hle
    exact download_video_resume_short bs remote c hlt hle
  · intro hbc hm
    refine ⟨download_video_resume_match bs remote c hbc hlt hm, ?_⟩
    intro hpre
    rw [download_fresh_eq remote]
    nth_rewrite 1 [hpre]
    exact List.take_append_drop _ _
  · intro hbc hm
    exact download_video_resume_mismatch bs remote c hbc hlt hm

/-- Witness for C1 at `blockSize = 2`, existing file `[1, 2, 3]`,
remote `[1, 2, 3, 4, 5]` (a true prefix: the matching branch resumes
and reproduces the fresh download). -/
theorem single_stream_resume_witness :
    (0 < 2 ∧ ([1, 2, 3] : List Nat).length < ([1, 2, 3, 4, 5] : List Nat).length) ∧
    (resume_stream 2 [1, 2, 3, 4, 5] [1, 2, 3] =
       ([1, 2, 3, 4, 5] : List Nat).drop (([1, 2, 3] : List Nat).length - 2) ∧
     (([1, 2, 3] : List Nat).length ≤ 2 →
       download_video 2 [1, 2, 3, 4, 5] (some [1, 2, 3]) =
         (.ok (download_fresh [1, 2, 3, 4, 5]), [resume_start 2 [1, 2, 3], 0])) ∧
     (2 < ([1, 2, 3] : List Nat).length →
       (([1, 2, 3, 4, 5] : List Nat).drop (([1, 2, 3] : List Nat).length - 2)).take 2 =
         ([1, 2, 3] : List Nat).drop (([1, 2, 3] : List Nat).length - 2) →
       (download_video 2 [1, 2, 3, 4, 5] (some [1, 2, 3]) =
           (.ok (([1, 2, 3] : List Nat) ++
              ([1, 2, 3, 4, 5] : List Nat).drop ([1, 2, 3] : List Nat).length),
            [resume_start 2 [1, 2, 3]]) ∧
         (([1, 2, 3] : List Nat) =
             ([1, 2, 3, 4, 5] : List Nat).take ([1, 2, 3] : List Nat).length →
           ([1, 2, 3] : List Nat) ++
               ([1, 2, 3, 4, 5] : List Nat).drop ([1, 2, 3] : List Nat).length =
             download_fresh [1, 2, 3, 4, 5]))) ∧
     (2 < ([1, 2, 3] : List Nat).length →
       (([1, 2, 3, 4, 5] : List Nat).drop (([1, 2, 3] : List Nat).length - 2)).take 2 ≠
         ([1, 2, 3] : List Nat).drop (([1, 2, 3] : List Nat).length - 2) →
       download_video 2 [1, 2, 3, 4, 5] (some [1, 2, 3]) =
         (.ok (download_fresh [1, 2, 3, 4, 5]), [resume_start 2 [1, 2, 3], 0])) ∧
     download_fresh [1, 2, 3, 4, 5] = [1, 2, 3, 4, 5]) :=
  ⟨⟨by decide, by decide⟩,
    single_stream_resume 2 [1, 2, 3, 4, 5] [1, 2, 3] (by decide) (by decide)⟩

/-- C1 counterexample: existing file `8 :: replicate 1024 1`
(1025 bytes) against remote `9 :: replicate 1024 1 ++ [5]` (1026
bytes), `blockSize = 1024`: the overlap block (the last 1024 bytes)
matches byte-for-byte, resume proceeds, yet the final file
`8 :: replicate 1024 1 ++ [5]` differs from a fresh full download in
its first byte — the overlap check is only a tail heuristic. -/
theorem single_stream_resume_ce :
    ce_file.length < ce_remote.length ∧
    (ce_remote.drop (ce_file.length - BLOCK_SIZE)).take BLOCK_SIZE =
      ce_file.drop (ce_file.length - BLOCK_SIZE) ∧
    (download_video BLOCK_SIZE ce_remote (some ce_file)).1 =
      .ok (ce_file ++ [5]) ∧
    ce_file ++ [5] ≠ download_fresh ce_remote := by
  have hlf : ce_file.length = 1025 := by
    rw [ce_file, List.length_cons, List.length_replicate]
  have hlr : ce_remote.length = 1026 := by
    rw [ce_remote, List.length_cons, List.length_append, List.length_replicate]
    rfl
  have hlt : ce_file.length < ce_remote.length := by omega
  have hsub : ce_file.length - BLOCK_SIZE = 1 := by
    rw [hlf]; rfl
  have hdropr : ce_remote.drop 1 = List.replicate 1024 1 ++ [5] := by
    rw [ce_remote, List.drop_succ_cons, List.drop_zero]
  have hdropf : ce_file.drop 1 = List.replicate 1024 1 := by
    rw [ce_file, List.drop_succ_cons, List.drop_zero]
  have htake : (List.replicate 1024 (1 : Nat) ++ [5]).take 1024 =
      List.replicate 1024 (1 : Nat) :=
    List.take_left' (by rw [List.length_replicate])
  have hm : (ce_remote.drop (ce_file.length - BLOCK_SIZE)).take BLOCK_SIZE =
      ce_file.drop (ce_file.length - BLOCK_SIZE) := by
    rw [hsub, hdropr, hdropf]
    exact htake
  have hbc : BLOCK_SIZE < ce_file.length := by rw [hlf]; decide
  have hend : ce_remote.drop ce_file.length = [5] := by
    rw [hlf, ce_remote, List.drop_succ_cons]
    exact List.drop_left' (by rw [List.length_replicate])
  refine ⟨hlt, hm, ?_, ?_⟩
  · rw [download_video_resume_match BLOCK_SIZE ce_remote ce_file hbc hlt hm, hend]
  · rw [download_fresh_eq]
    intro heq
    have h0 : (ce_file ++ [5]).head? = ce_remote.head? := by rw [heq]
    rw [ce_file, ce_remote, List.cons_append, List.head?_cons, List.head?_cons] at h0
    exact absurd (Option.some.inj h0) (by decide)

/-- C5: for an existing file at least as long as the remote content,
the single-stream path is a no-op success when the sizes agree —
the file is left as is and no media-data GET is issued — and raises
(`FormatNotAvailableException`, the `LengthMismatch` of the spec) when
the existing file is longer, likewise before any media-data GET; the
code consults no force-highest flag here, so the refusal is identical in
both flag states. -/
theorem existing_file_size_gate (remote c : List Nat)
    (h : remote.length ≤ c.length) :
    download_video BLOCK_SIZE remote (some c) =
      (if c.length = remote.length then (.ok c, ([] : List Int))
       else (.error (), [])) := by
  have h1 : ¬ (c.length < remote.length) := by omega
  by_cases h2 : c.length = remote.length
  · rw [if_pos h2]
    rw [download_video, if_neg h1, if_neg (by omega)]
  · rw [if_neg h2]
    rw [download_video, if_neg h1, if_pos (by omega)]

/-- Witness for C5 with a stale 2-byte file against 1-byte remote
content (the error limb) — the equal-size limb is decided inside the
`if`. -/
theorem existing_file_size_gate_witness :
    ([7] : List Nat).length ≤ ([7, 7] : List Nat).length ∧
    download_video BLOCK_SIZE [7] (some [7, 7]) =
      (if ([7, 7] : List Nat).length = ([7] : List Nat).length
       then (.ok [7, 7], ([] : List Int))
       else (.error (), [])) :=
  ⟨by decide, existing_file_size_gate [7] [7, 7] (by decide)⟩

end NNDownload
